import Mathlib

/-
Verification of the schema-inference engine of mongo-to-mongoose
(src/index.js, with the legacy variants under src/unnamed/ where cited).

The engine walks MongoDB documents, classifies each terminal value with
`inferType`, accumulates path → type-tag facts in a flat map (a JS object,
i.e. an insertion-ordered string-keyed association list), rebuilds a nested
schema tree with `flatMapToSchema`, and renders it with
`flatMapToMongooseJSONSchema`.  src/index.js is an ES module, so all of its
code runs in strict mode: assigning a property on a primitive string throws
a TypeError.
-/

namespace MongoToMongoose

/-- JavaScript runtime values that can occur as document field values, as
seen by `updateFlatMap` in src/index.js.  `vStr` carries, as part of the
input datum, whether the host's `new Date(s)` parses the string to a valid
date (JS date parsing is host-defined, so it is modelled as data).
`vDate`, `vObjectId`, `vDecimal128`, `vRegex` and `vMinKey` are modelled
without enumerable own properties, matching `for...in` yielding no keys on
them. -/
inductive Value where
  | vBool (b : Bool)
  | vNum (n : Int)
  | vStr (s : String) (dateParsable : Bool)
  | vDate
  | vObjectId
  | vDecimal128
  | vNull
  | vUndefined
  | vRegex
  | vMinKey
  | vObj (fields : List (String × Value))
  | vArr (elems : List Value)

/-- Errors thrown by `inferType`: reading `value._bsontype` on `null` or
`undefined` throws a TypeError; the final fall-through throws the
"Unsupported type of" Error. -/
inductive JsError where
  | typeError
  | unsupported
deriving DecidableEq

/-- The catch-all tag stored by `mergeTypes` in src/index.js. -/
def mixedTag : String := "mongoose.Schema.Types.Mixed"

/-- JS `/^\d+$/.test(s)`: one or more ASCII digits and nothing else. -/
def allDigits (s : String) : Bool := !(s = "") && s.toList.all Char.isDigit

/-- The type classifier `inferType` of src/index.js, branch for branch:
booleans, then numbers / Decimal128 (where `value._bsontype` throws a
TypeError on null and undefined), then Date instances, then the
date-parseable-string heuristic (the `new Date(value)` validity test only
matters together with `typeof value === 'string'`, so it reduces to the
string's `dateParsable` flag and the `/^\d+$/` guard), then strings /
ObjectId, and otherwise `throw new Error('Unsupported type of: ...')`.
Plain objects, arrays, RegExp and MinKey/MaxKey reach the throw. -/
def inferType : Value → Except JsError String
  | .vBool _ => .ok "Boolean"
  | .vNull => .error .typeError
  | .vUndefined => .error .typeError
  | .vNum _ => .ok "Number"
  | .vDecimal128 => .ok "Number"
  | .vDate => .ok "Date"
  | .vStr s dateParsable =>
      if dateParsable && !allDigits s then .ok "Date" else .ok "String"
  | .vObjectId => .ok "String"
  | .vObj _ => .error .unsupported
  | .vArr _ => .error .unsupported
  | .vRegex => .error .unsupported
  | .vMinKey => .error .unsupported

/-- The merge policy `mergeTypes` of src/index.js: no existing entry (or a
falsy empty-string entry) stores the new tag, an equal tag is a no-op, and
any other pair collapses to the Mixed catch-all.  `none` models a missing
key (`flatMap[currentPath]` reading `undefined`). -/
def mergeTypes : Option String → String → String
  | none, n => n
  | some e, n => if e = "" then n else if e = n then e else mixedTag

/-- Reading a key of a JS object modelled as an insertion-ordered
association list (keys are unique by construction of `jsSet`). -/
def jsGet : List (String × α) → String → Option α
  | [], _ => none
  | (k', v') :: rest, k => if k' = k then some v' else jsGet rest k

/-- Writing a key of a JS object: an existing key keeps its position and
gets the new value, a new key is appended (JS insertion order). -/
def jsSet : List (String × α) → String → α → List (String × α)
  | [], k, v => [(k, v)]
  | (k', v') :: rest, k, v =>
      if k' = k then (k', v) :: rest else (k', v') :: jsSet rest k v

/-- The accumulator `flatMap`: dotted path → type-tag string. -/
abbrev FlatMap := List (String × String)

deriving instance DecidableEq for Except

/-- One execution of the line
`flatMap[currentPath] = mergeTypes(flatMap[currentPath], inferType(value))`
for an already classified tag. -/
def mergeStep (m : FlatMap) (p t : String) : FlatMap :=
  jsSet m p (mergeTypes (jsGet m p) t)

/-- Path extension: `path ? path + '.' + key : key`. -/
def joinPath (path k : String) : String :=
  if path = "" then k else path ++ "." ++ k

/-- The body of `updateFlatMap` of src/index.js over the field list of one
object (`for (const key in doc)` in enumeration order).  The result is
`Except`: `.ok m` is normal completion, `.error m` is a JS exception
escaping `updateFlatMap` with the mutations made so far (the only such
exception: `inferType(value[0])` throwing inside the catch block, for a
non-empty array whose first element is neither a plain object nor
classifiable).  The catch branch dispatches on the constructor exactly as
`typeof value === 'object' && !Array.isArray(value)` does: null, RegExp
and MinKey are recursed into like objects but enumerate no keys, so that
recursion returns the accumulator unchanged. -/
def updateFields : List (String × Value) → FlatMap → String → Except FlatMap FlatMap
  | [], m, _ => .ok m
  | (k, v) :: rest, m, path =>
    let cp := joinPath path k
    match inferType v with
    | .ok t => updateFields rest (mergeStep m cp t) path
    | .error _ =>
      match v with
      | .vObj fs =>
          -- typeof 'object', not an array: recurse into the value
          match updateFields fs m cp with
          | .ok m2 => updateFields rest m2 path
          | .error m2 => .error m2
      | .vNull | .vRegex | .vMinKey =>
          -- recursed into, but for...in yields no keys: nothing recorded
          updateFields rest m path
      | .vArr [] =>
          -- `value.length > 0` fails: the empty array contributes nothing
          updateFields rest m path
      | .vArr (e0 :: _) =>
          -- only `value[0]` is ever inspected
          match e0 with
          | .vObj fs0 =>
              match updateFields fs0 m (cp ++ ".$") with
              | .ok m2 => updateFields rest m2 path
              | .error m2 => .error m2
          | .vNull | .vRegex | .vMinKey | .vDate | .vObjectId | .vDecimal128 =>
              -- typeof 'object' and not an array: recursed into, no keys
              updateFields rest m path
          | _ =>
              -- `flatMap[cp + '.$'] = mergeTypes(..., inferType(value[0]))`;
              -- a throw here is inside the catch block and escapes
              match inferType e0 with
              | .ok t0 => updateFields rest (mergeStep m (cp ++ ".$") t0) path
              | .error _ => .error m
      | _ =>
          -- console.error(error.message): log and skip this field
          updateFields rest m path

/-- Entry point `updateFlatMap(doc, flatMap)` (default `path = ''`). -/
def updateFlatMap (doc : List (String × Value)) (m : FlatMap) : Except FlatMap FlatMap :=
  updateFields doc m ""

/-- Values arising inside `flatMapToSchema`'s result object: type-tag
strings at the leaves, plain objects, and JS arrays.  A JS array is an
object, so named (non-index) properties can be assigned onto it; they are
kept in `props`, invisible to `Array.isArray`-driven rendering, exactly as
in the source. -/
inductive JVal where
  | str (s : String)
  | obj (fields : List (String × JVal))
  | arr (elems : List JVal) (props : List (String × JVal))

/-- Numeric value of a run of ASCII digits. -/
def digitsToNat (cs : List Char) : Nat :=
  cs.foldl (fun acc c => acc * 10 + (c.toNat - 48)) 0

/-- JS canonical array-index keys: `'0'`, or digits without a leading
zero.  (`arr['00']` is a plain property access in JS, not an element
access.) -/
def jsIndex? (s : String) : Option Nat :=
  match s.toList with
  | [] => none
  | ['0'] => some 0
  | c :: cs =>
      if c = '0' then none
      else if c.isDigit && cs.all Char.isDigit then some (digitsToNat (c :: cs))
      else none

/-- Property read `current[key]`.  On an object: the named property.  On an
array: an index key reads the element, otherwise the named property.  On a
primitive string: an index key in range reads the one-character string,
anything else is `undefined` (`none`); the only divergence from JS is
`'length'`-style built-ins, whose numeric result would make every
subsequent property assignment throw just as `none` does here. -/
def jvGet : JVal → String → Option JVal
  | .obj fs, k => jsGet fs k
  | .arr es ps, k =>
      match jsIndex? k with
      | some i => es[i]?
      | none => jsGet ps k
  | .str s, k =>
      match jsIndex? k with
      | some i => (s.toList[i]?).map (fun c => .str (String.mk [c]))
      | none => none

/-- JS truthiness of `current[key]`: absent (`undefined`) and the empty
string are falsy, every object, array and non-empty string is truthy. -/
def jvTruthy : Option JVal → Bool
  | none => false
  | some (.str s) => !(s = "")
  | some _ => true

/-- Property write `current[key] = v` in strict mode.  Writing on a
primitive string throws a TypeError (src/index.js is an ES module, hence
strict).  Writing a named property on an array stores it invisibly to the
renderer; a numeric write replaces the element (out-of-range writes never
occur in runs reachable from `updateFlatMap` output). -/
def jvSet : JVal → String → JVal → Except Unit JVal
  | .obj fs, k, v => .ok (.obj (jsSet fs k v))
  | .arr es ps, k, v =>
      match jsIndex? k with
      | some i => .ok (.arr (es.set i v) ps)
      | none => .ok (.arr es (jsSet ps k v))
  | .str _, _, _ => .error ()

/-- One `Object.keys(flatMap).forEach` iteration of `flatMapToSchema` in
src/index.js: the cursor loop over `keys = path.split('.')`, written as
recursion on the remaining keys, rebuilding the tree along the cursor's
track (the JS cursor mutates shared subobjects in place; rebuilding on the
way out is the functional rendering of the same updates).  `.error ()` is
a strict-mode TypeError escaping `flatMapToSchema`: either a property
write on a primitive-string leaf, or any access after the cursor has
become `undefined`. -/
def insertPath (cur : JVal) (keys : List String) (v : String) : Except Unit JVal :=
  match keys with
  | [] => .ok cur
  | [k] =>
      -- isLastKey: `current[key] = flatMap[path]`
      jvSet cur k (.str v)
  | k :: k2 :: rest2 =>
    if k2 = "$" then
      if rest2 = [] then
        -- `current[key] = [flatMap[path]]; break`
        jvSet cur k (.arr [.str v] [])
      else
        -- `if (!current[key]) current[key] = [{}];
        --  current = current[key][0]; index++`
        match (if jvTruthy (jvGet cur k) then .ok cur
               else jvSet cur k (.arr [.obj []] []) : Except Unit JVal) with
        | .error e => .error e
        | .ok cur1 =>
          match jvGet cur1 k with
          | none => .error ()
          | some arrVal =>
            match jvGet arrVal "0" with
            | none => .error ()   -- cursor undefined: next iteration throws
            | some child =>
              match insertPath child rest2 v with
              | .error e => .error e
              | .ok child' =>
                match jvSet arrVal "0" child' with
                | .error e => .error e
                | .ok arrVal' => jvSet cur1 k arrVal'
    else
      -- `if (!current[key]) current[key] = {}; current = current[key]`
      match (if jvTruthy (jvGet cur k) then .ok cur
             else jvSet cur k (.obj []) : Except Unit JVal) with
      | .error e => .error e
      | .ok cur1 =>
        match jvGet cur1 k with
        | none => .error ()       -- cursor undefined: next iteration throws
        | some child =>
          match insertPath child (k2 :: rest2) v with
          | .error e => .error e
          | .ok child' => jvSet cur1 k child'

/-- Accumulating tail of `path.split('.')`. -/
def splitDotAux : List Char → List Char → List String
  | [], acc => [String.mk acc.reverse]
  | ch :: rest, acc =>
      if ch = '.' then String.mk acc.reverse :: splitDotAux rest []
      else splitDotAux rest (ch :: acc)

/-- JS `path.split('.')` for the one-character separator used by the
source: `''` gives `['']`, adjacent separators give empty segments. -/
def splitDot (s : String) : List String := splitDotAux s.toList []

/-- The `forEach` over `Object.keys(flatMap)` (insertion order); a thrown
TypeError aborts the whole construction. -/
def flatMapToSchemaAux : List (String × String) → JVal → Except Unit JVal
  | [], s => .ok s
  | (p, t) :: rest, s =>
      match insertPath s (splitDot p) t with
      | .error e => .error e
      | .ok s' => flatMapToSchemaAux rest s'

/-- The Schema Builder `flatMapToSchema` of src/index.js, starting from the
empty object literal. -/
def flatMapToSchema (m : FlatMap) : Except Unit JVal :=
  flatMapToSchemaAux m (.obj [])

/-- The renderer's `isValidKey`: `/^[a-zA-Z_$][a-zA-Z0-9_$]*$/`. -/
def isValidKey (k : String) : Bool :=
  match k.toList with
  | [] => false
  | c :: cs =>
      (c.isAlpha || c = '_' || c = '$') &&
      cs.all (fun d => d.isAlphanum || d = '_' || d = '$')

/-- JS `' '.repeat(n)`. -/
def spaces (n : Nat) : String := String.mk (List.replicate n ' ')

/-- The tags that `stringifyHelper`'s switch prints bare (or wrapped in the
configured type key); every other string is printed quoted. -/
def isBareTag (s : String) : Bool :=
  s = "String" || s = "Date" || s = "Number" || s = "Boolean"

/-- JS truthiness of the `typeKey` option (default `null`). -/
def typeKeyTruthy : Option String → Bool
  | none => false
  | some tk => !(tk = "")

/-- The renderer `stringifyHelper` of src/index.js: arrays as
bracket-delimited line-per-element blocks, objects as brace-delimited
`key: value` lines with invalid keys quoted, bare tags via the switch
(wrapped as `\x7b typeKey: Tag \x7d` when a truthy type key is
configured), and all other strings quoted.  Named properties stored on an
array are invisible here, as `Array.isArray` wins in the source. -/
def stringifyHelper (typeKey : Option String) (indent : Nat) : JVal → Nat → String
  | .arr es _, ci =>
      "[\n" ++
      String.intercalate ",\n"
        (es.attach.map (fun x =>
          spaces (ci + indent) ++ stringifyHelper typeKey indent x.1 (ci + indent))) ++
      "\n" ++ spaces ci ++ "]"
  | .obj fs, ci =>
      "\x7b\n" ++
      String.intercalate ",\n"
        (fs.attach.map (fun x =>
          spaces (ci + indent) ++
          (if isValidKey x.1.1 then x.1.1 else "\"" ++ x.1.1 ++ "\"") ++
          ": " ++ stringifyHelper typeKey indent x.1.2 (ci + indent))) ++
      "\n" ++ spaces ci ++ "\x7d"
  | .str s, _ =>
      if isBareTag s then
        match typeKey with
        | some tk => if tk = "" then s else "\x7b " ++ tk ++ ": " ++ s ++ " \x7d"
        | none => s
      else "\"" ++ s ++ "\""
  termination_by v _ => sizeOf v
  decreasing_by
  · have := List.sizeOf_lt_of_mem x.2
    simp_all
    omega
  · obtain ⟨⟨a, b⟩, hx⟩ := x
    have := List.sizeOf_lt_of_mem hx
    simp_all
    omega

/-- The pipeline tail `flatMapToMongooseJSONSchema(flatMap, indent,
typeKey)`: build the nested schema, then stringify it from indent level 0.
An exception from the builder escapes (and is only caught by the
top-level CLI handler, which discards the schema). -/
def flatMapToMongooseJSONSchema (m : FlatMap) (indent : Nat) (typeKey : Option String) :
    Except Unit String :=
  match flatMapToSchema m with
  | .error e => .error e
  | .ok schema => .ok (stringifyHelper typeKey indent schema 0)

/-- JS `s.endsWith(suf)`, character-list suffix test. -/
def jsEndsWith (s suf : String) : Bool :=
  suf.toList.isSuffixOf s.toList

/-- Key normalization step of the legacy variant src/unnamed/part_001
(`updateFlatMap` there), applied to every flattened key: a custom type key
is appended to every path; with the default `'type'` key, a path equal to
or ending in `.type` gets a disambiguating extra `.type` segment. -/
def applyTypeKeySuffix (typeKey k : String) : String :=
  if !(typeKey = "type") then k ++ "." ++ typeKey
  else if k = "type" || jsEndsWith k ".type" then k ++ ".type"
  else k

/-! Basic facts about the JS-object operations and the merge policy. -/

theorem jsGet_jsSet_self {α : Type} (m : List (String × α)) (k : String) (v : α) :
    jsGet (jsSet m k v) k = some v := by
  induction m with
  | nil => simp [jsSet, jsGet]
  | cons kv rest ih =>
      obtain ⟨k', v'⟩ := kv
      by_cases h : k' = k
      · simp [jsSet, jsGet, h]
      · simp [jsSet, jsGet, h, ih]

theorem jsSet_jsSet_self {α : Type} (m : List (String × α)) (k : String) (a b : α) :
    jsSet (jsSet m k a) k b = jsSet m k b := by
  induction m with
  | nil => simp [jsSet]
  | cons kv rest ih =>
      obtain ⟨k', v'⟩ := kv
      by_cases h : k' = k <;> simp [jsSet, h, ih]

theorem mergeTypes_mixed_absorb (t : String) :
    mergeTypes (some mixedTag) t = mixedTag := by
  show (if mixedTag = "" then t else if mixedTag = t then mixedTag else mixedTag) = mixedTag
  rw [if_neg (by decide), ite_self]

theorem mergeTypes_merge_self (e : Option String) (t : String) :
    mergeTypes (some (mergeTypes e t)) t = mergeTypes e t := by
  have hmix : ¬(mixedTag = "") := by decide
  cases e with
  | none =>
      simp only [mergeTypes]
      split_ifs <;> simp_all
  | some x =>
      simp only [mergeTypes]
      split_ifs <;> simp_all

theorem mergeStep_idem (m : FlatMap) (p t : String) :
    mergeStep (mergeStep m p t) p t = mergeStep m p t := by
  unfold mergeStep
  rw [jsGet_jsSet_self, mergeTypes_merge_self, jsSet_jsSet_self]

/-! The claims. -/

/-- C1, counterexample.  After `{x:1}` then `{x:"s"}`, the accumulator
entry for `x` is the single catch-all tag Mixed — not a two-member Union
containing Number and String (the merge of src/index.js has no union
representation at all): the stored value equals neither observed tag. -/
theorem C1_counterexample :
    updateFlatMap [("x", Value.vNum 1)] [] = .ok [("x", "Number")] ∧
    updateFlatMap [("x", Value.vStr "s" false)] [("x", "Number")] = .ok [("x", mixedTag)] ∧
    ¬(mixedTag = "Number") ∧ ¬(mixedTag = "String") := by
  refine ⟨?_, ?_, by decide, by decide⟩ <;>
    simp [updateFlatMap, updateFields, mergeStep, joinPath, jsGet, jsSet, mergeTypes,
      inferType, allDigits, mixedTag]

/-- C1, amended: merging a second, distinct, non-empty tag at a path never
builds a Union; it overwrites the entry with the Mixed catch-all (the
documented simpler policy variant). -/
theorem C1_conflict_becomes_mixed (m : FlatMap) (p t u : String)
    (hget : jsGet m p = some t) (hne : ¬(t = "")) (hdist : ¬(t = u)) :
    jsGet (mergeStep m p u) p = some mixedTag := by
  unfold mergeStep
  rw [hget]
  show jsGet (jsSet m p (if t = "" then u else if t = u then t else mixedTag)) p = some mixedTag
  rw [if_neg hne, if_neg hdist, jsGet_jsSet_self]

/-- C1, witness for the amended theorem at Number then String. -/
theorem C1_conflict_becomes_mixed_witness :
    jsGet [("x", "Number")] "x" = some "Number" ∧ ¬(("Number" : String) = "") ∧
    ¬(("Number" : String) = "String") ∧
    jsGet (mergeStep [("x", "Number")] "x" "String") "x" = some mixedTag :=
  ⟨by decide, by decide, by decide,
    C1_conflict_becomes_mixed [("x", "Number")] "x" "Number" "String"
      (by decide) (by decide) (by decide)⟩

/-- C2, counterexample.  A field whose value is a non-empty array with a
non-classifiable, non-object first element (here a nested array, as in any
GeoJSON-style `[[1]]`) makes `inferType(value[0])` throw inside the catch
block; the error escapes `updateFlatMap`, so the later field `b` of the
same document is never processed — processing does not always continue. -/
theorem C2_counterexample :
    updateFlatMap [("a", Value.vArr [Value.vArr [Value.vNum 1]]), ("b", Value.vBool true)] [] =
      .error [] := by
  simp [updateFlatMap, updateFields, mergeStep, joinPath, jsGet, jsSet, mergeTypes,
    inferType, allDigits]

/-- C2, amended: a classification failure on a non-container field value is
caught, logged and skipped, leaving the accumulator unchanged at that path
and continuing with the remaining fields; but when the failing value is a
non-empty array whose first element also fails classification and is not
an object, the inner throw escapes the per-field catch and aborts the rest
of the document. -/
theorem C2_skip_unclassifiable_field :
    (∀ (k : String) (rest : List (String × Value)) (m : FlatMap) (p : String),
        updateFields ((k, Value.vUndefined) :: rest) m p = updateFields rest m p) ∧
    updateFlatMap [("a", Value.vArr [Value.vArr [Value.vNum 1]]), ("b", Value.vBool true)] [] =
      .error [] := by
  constructor
  · intro k rest m p
    simp [updateFields, inferType]
  · simp [updateFlatMap, updateFields, mergeStep, joinPath, jsGet, jsSet, mergeTypes,
      inferType, allDigits]

/-- C3, counterexample.  The accumulator `\x7ba: Number, a.b: String\x7d` is
reachable (documents `{a:1}` then `{a:{b:"s"}}`) and, in that insertion
order, `flatMapToSchema` throws a strict-mode TypeError (assigning a
property on the primitive string stored at `a`), aborting tree
construction. -/
theorem C3_counterexample :
    updateFlatMap [("a", Value.vNum 1)] [] = .ok [("a", "Number")] ∧
    updateFlatMap [("a", Value.vObj [("b", Value.vStr "s" false)])] [("a", "Number")] =
      .ok [("a", "Number"), ("a.b", "String")] ∧
    flatMapToSchema [("a", "Number"), ("a.b", "String")] = .error () := by
  refine ⟨?_, ?_, rfl⟩ <;>
    simp [updateFlatMap, updateFields, mergeStep, joinPath, jsGet, jsSet, mergeTypes,
      inferType, allDigits]

/-- C3, amended: with the deeper path first, the later scalar path
overwrites the subtree (last-wins) and the build succeeds; with the scalar
path first, the deeper path's insertion throws and aborts the whole tree
construction. -/
theorem C3_prefix_conflict_policy (t u : String) (ht : ¬(t = "")) :
    flatMapToSchema [("a.b", u), ("a", t)] = .ok (.obj [("a", .str t)]) ∧
    flatMapToSchema [("a", t), ("a.b", u)] = .error () := by
  have h1 : splitDot "a.b" = ["a", "b"] := rfl
  have h2 : splitDot "a" = ["a"] := rfl
  constructor <;>
    simp [flatMapToSchema, flatMapToSchemaAux, h1, h2, insertPath, jvGet, jvSet,
      jvTruthy, jsGet, jsSet, jsIndex?, ht]

/-- C3, witness for the amended theorem at tags Number and String. -/
theorem C3_prefix_conflict_policy_witness :
    ¬(("Number" : String) = "") ∧
    (flatMapToSchema [("a.b", "String"), ("a", "Number")] =
        .ok (.obj [("a", .str "Number")]) ∧
      flatMapToSchema [("a", "Number"), ("a.b", "String")] = .error ()) :=
  ⟨by decide, C3_prefix_conflict_policy "Number" "String" (by decide)⟩

/-- C4, counterexample.  A null (or RegExp, or MinKey) field does not yield
a Mixed entry: `inferType` throws, the catch recurses into the value as an
object, `for...in` enumerates nothing, and the accumulator ends with no
entry at all at the field's path. -/
theorem C4_counterexample :
    updateFlatMap [("x", Value.vNull)] [] = .ok [] ∧
    updateFlatMap [("x", Value.vRegex)] [] = .ok [] ∧
    updateFlatMap [("x", Value.vMinKey)] [] = .ok [] ∧
    jsGet ([] : FlatMap) "x" = none := by
  refine ⟨?_, ?_, ?_, rfl⟩ <;> simp [updateFlatMap, updateFields, inferType]

/-- C4, amended: null, regular-expression and min/max-sentinel fields fail
classification and are recursed into as enumerable-key-less objects, so
they contribute nothing: the path stays absent (never set to Mixed), and
processing continues with the remaining fields. -/
theorem C4_null_like_fields_absent (k : String) (rest : List (String × Value))
    (m : FlatMap) (p : String) :
    updateFields ((k, Value.vNull) :: rest) m p = updateFields rest m p ∧
    updateFields ((k, Value.vRegex) :: rest) m p = updateFields rest m p ∧
    updateFields ((k, Value.vMinKey) :: rest) m p = updateFields rest m p := by
  refine ⟨?_, ?_, ?_⟩ <;> simp [updateFields, inferType]

/-- C5, counterexample.  An empty-array field records nothing at all: no
Mixed tag at the field's path (the claim) and no element sub-path. -/
theorem C5_counterexample :
    updateFlatMap [("x", Value.vArr [])] [] = .ok [] ∧
    jsGet ([] : FlatMap) "x" = none ∧ jsGet ([] : FlatMap) "x.$" = none := by
  refine ⟨?_, rfl, rfl⟩
  simp [updateFlatMap, updateFields, inferType]

/-- C5, amended: an empty array is never descended into and produces no
entry whatsoever — neither a catch-all tag at the field's path nor an
element sub-path; the field is skipped entirely. -/
theorem C5_empty_array_no_entry (k : String) (rest : List (String × Value))
    (m : FlatMap) (p : String) :
    updateFields ((k, Value.vArr []) :: rest) m p = updateFields rest m p := by
  simp [updateFields, inferType]

/-- C6, counterexample.  For the array `[1, "s"]` only the first element is
classified: the element path gets Number, not the Mixed merge of Number
and String that classifying every element would produce. -/
theorem C6_counterexample :
    updateFlatMap [("x", Value.vArr [Value.vNum 1, Value.vStr "s" false])] [] =
      .ok [("x.$", "Number")] ∧ ¬(("Number" : String) = mixedTag) := by
  refine ⟨?_, by decide⟩
  simp [updateFlatMap, updateFields, mergeStep, joinPath, jsGet, jsSet, mergeTypes,
    inferType, allDigits]

/-- C6, amended: only `value[0]` of an array is ever inspected — the
result of processing an array field does not depend on the elements after
the first; types of later elements merge only if they appear first in some
other document's array. -/
theorem C6_first_element_only (k : String) (e0 : Value) (tl : List Value)
    (rest : List (String × Value)) (m : FlatMap) (p : String) :
    updateFields ((k, Value.vArr (e0 :: tl)) :: rest) m p =
      updateFields ((k, Value.vArr [e0]) :: rest) m p := by
  cases e0 <;> simp [updateFields, inferType]

/-- C7, counterexample.  The flattener of src/index.js appends no
disambiguating suffix: a field literally named `type` is stored at path
`type` itself, and no suffixed path exists. -/
theorem C7_counterexample :
    updateFlatMap [("type", Value.vBool true)] [] = .ok [("type", "Boolean")] ∧
    jsGet [("type", "Boolean")] "type.type" = none := by
  refine ⟨?_, by decide⟩
  simp [updateFlatMap, updateFields, mergeStep, joinPath, jsGet, jsSet, mergeTypes, inferType]

/-- C7, amended: only the legacy variant src/unnamed/part_001 disambiguates
the type key — appending `.type` to a path equal to or ending in `type`,
and appending a configured custom type key to every path; the flattener of
src/index.js stores the field named `type` at the unsuffixed path. -/
theorem C7_type_key_policy :
    updateFlatMap [("type", Value.vBool true)] [] = .ok [("type", "Boolean")] ∧
    applyTypeKeySuffix "type" "type" = "type.type" ∧
    applyTypeKeySuffix "type" "a.type" = "a.type.type" ∧
    applyTypeKeySuffix "type" "name" = "name" ∧
    applyTypeKeySuffix "$type" "name" = "name.$type" := by
  refine ⟨?_, by decide, by decide, by decide, by decide⟩
  simp [updateFlatMap, updateFields, mergeStep, joinPath, jsGet, jsSet, mergeTypes, inferType]

/-- C8 (confirmed): Mixed is absorbing — once the accumulator's entry at a
path is the Mixed catch-all, merging any further observed tag there leaves
it Mixed. -/
theorem C8_mixed_absorbing (m : FlatMap) (p t : String)
    (h : jsGet m p = some mixedTag) :
    jsGet (mergeStep m p t) p = some mixedTag := by
  unfold mergeStep
  rw [h, mergeTypes_mixed_absorb, jsGet_jsSet_self]

/-- C8, witness at a one-entry accumulator and a Number observation. -/
theorem C8_mixed_absorbing_witness :
    jsGet [("x", mixedTag)] "x" = some mixedTag ∧
    jsGet (mergeStep [("x", mixedTag)] "x" "Number") "x" = some mixedTag :=
  ⟨by decide, C8_mixed_absorbing [("x", mixedTag)] "x" "Number" (by decide)⟩

/-- C9 (confirmed): the merge is idempotent — repeating the same
(path, tag) observation once more, or any number of further times, leaves
the accumulator exactly as after the first merge. -/
theorem C9_merge_idempotent (m : FlatMap) (p t : String) :
    mergeStep (mergeStep m p t) p t = mergeStep m p t ∧
    ∀ n : Nat, (fun mm => mergeStep mm p t)^[n] (mergeStep m p t) = mergeStep m p t := by
  refine ⟨mergeStep_idem m p t, ?_⟩
  intro n
  induction n with
  | zero => rfl
  | succ n ih =>
      rw [Function.iterate_succ_apply]
      show (fun mm => mergeStep mm p t)^[n] (mergeStep (mergeStep m p t) p t) = mergeStep m p t
      rw [mergeStep_idem]
      exact ih

/-- C10, counterexample.  Two documents equal as key→value mappings but
with keys enumerated in opposite orders flatten to accumulators equal as
mappings yet differently ordered, and the rendered schema texts differ:
output is not key-order independent. -/
theorem C10_counterexample :
    updateFlatMap [("a", Value.vNum 1), ("b", Value.vStr "s" false)] [] =
      .ok [("a", "Number"), ("b", "String")] ∧
    updateFlatMap [("b", Value.vStr "s" false), ("a", Value.vNum 1)] [] =
      .ok [("b", "String"), ("a", "Number")] ∧
    flatMapToMongooseJSONSchema [("a", "Number"), ("b", "String")] 2 none =
      .ok "\x7b\n  a: Number,\n  b: String\n\x7d" ∧
    flatMapToMongooseJSONSchema [("b", "String"), ("a", "Number")] 2 none =
      .ok "\x7b\n  b: String,\n  a: Number\n\x7d" ∧
    ¬(("\x7b\n  a: Number,\n  b: String\n\x7d" : String) =
        "\x7b\n  b: String,\n  a: Number\n\x7d") := by
  have ha : flatMapToSchema [("a", "Number"), ("b", "String")] =
      .ok (.obj [("a", .str "Number"), ("b", .str "String")]) := rfl
  have hb : flatMapToSchema [("b", "String"), ("a", "Number")] =
      .ok (.obj [("b", .str "String"), ("a", .str "Number")]) := rfl
  refine ⟨?_, ?_, ?_, ?_, by decide⟩
  · simp [updateFlatMap, updateFields, mergeStep, joinPath, jsGet, jsSet, mergeTypes,
      inferType, allDigits]
  · simp [updateFlatMap, updateFields, mergeStep, joinPath, jsGet, jsSet, mergeTypes,
      inferType, allDigits]
  · simp [flatMapToMongooseJSONSchema, ha, stringifyHelper, spaces, isBareTag, isValidKey]
    rfl
  · simp [flatMapToMongooseJSONSchema, hb, stringifyHelper, spaces, isBareTag, isValidKey]
    rfl

/-- C10, amended: document key order does not change the flattened
accumulator as a key→value mapping, but it does fix the accumulator's
insertion order, which the builder and renderer follow — so the rendered
schema text differs between the two enumeration orders. -/
theorem C10_key_order :
    (∀ k : String, jsGet [("a", "Number"), ("b", "String")] k =
        jsGet [("b", "String"), ("a", "Number")] k) ∧
    ¬(flatMapToMongooseJSONSchema [("a", "Number"), ("b", "String")] 2 none =
        flatMapToMongooseJSONSchema [("b", "String"), ("a", "Number")] 2 none) := by
  constructor
  · intro k
    by_cases h1 : "a" = k
    · by_cases h2 : "b" = k
      · exact absurd (h1.trans h2.symm) (by decide)
      · simp [jsGet, h1, h2]
    · by_cases h2 : "b" = k <;> simp [jsGet, h1, h2]
  · have ha : flatMapToSchema [("a", "Number"), ("b", "String")] =
        .ok (.obj [("a", .str "Number"), ("b", .str "String")]) := rfl
    have hb : flatMapToSchema [("b", "String"), ("a", "Number")] =
        .ok (.obj [("b", .str "String"), ("a", .str "Number")]) := rfl
    simp [flatMapToMongooseJSONSchema, ha, hb, stringifyHelper, spaces, isBareTag, isValidKey]
    decide

end MongoToMongoose
